import Mathlib

/-!
Shallow embedding of the recipe resolution and discovery pipeline of
crates/goose-cli/src/recipes/search_recipe.rs and the deeplink encoder of
crates/goose-cli/src/commands/recipe.rs.

Filesystem, process-environment and configuration access are modelled as an
explicit environment record `Env`; external collaborators (the GitHub
fetch/list operations, the template parsing engine, serde serialization) are
explicit function parameters.  `anyhow::Result<T>` is modelled as
`Except String T`, an error being its rendered message.  Paths are modelled
as their rendered strings, `Path::join` as concatenation with the Unix
separator, and the purely syntactic path operations (`parent`, `file_stem`)
as components of the environment record.
-/

/-- Modelled from the spec: the constant `RECIPE_FILE_EXTENSIONS` lives in
crates/goose-cli/src/recipes/recipe.rs, which is not among the staged source
files.  The spec fixes "exactly two" recognized extensions in priority order,
and the error messages in search_recipe.rs name `.yaml` and `.json` in that
order. -/
def RECIPE_FILE_EXTENSIONS : List String := ["yaml", "json"]

/-- One entry of `fs::read_dir`, with the filesystem queries the scan makes on
it (`entry.path()`, `path.is_file()`, `path.extension()`) recorded as fields. -/
structure DirEntry where
  path : String
  isFile : Bool
  extension : Option String

/-- The ambient state `search_recipe.rs` reads: filesystem, process
environment and configuration.  Purely syntactic path operations are also
kept here so they can be interpreted by a concrete model. -/
structure Env where
  /-- Model of `fs::read_to_string`; the error is the rendered OS error. -/
  read : String → Except String String
  /-- Model of `Path::canonicalize`. -/
  canonicalize : String → Except String String
  /-- Model of `Path::parent`, on the rendered path; `none` when the path has none. -/
  parent : String → Option String
  /-- Model of `Path::file_stem().and_then(to_str)`. -/
  fileStem : String → Option String
  /-- Model of `Path::exists`. -/
  pathExists : String → Bool
  /-- Model of `Path::is_dir`. -/
  isDir : String → Bool
  /-- Model of `fs::read_dir`: `Except` when the directory cannot be opened, and each
  entry may itself be an error, as in the Rust iterator. -/
  readDir : String → Except String (List (Except String DirEntry))
  /-- Value of `env::var("GOOSE_RECIPE_PATH")`, when set to a unicode value. -/
  recipePathEnv : Option String
  /-- Value of `cfg!(windows)`. -/
  windows : Bool
  /-- Result of `configured_github_recipe_repo()`: the `Config::get_param` lookup
  collapsed to its result (`Ok(Some(repo))` gives `some repo`, all other
  outcomes give `none`, as in the source's `match`). -/
  githubRepo : Option String

/-- Model of `Path::join` rendered on strings. -/
def joinPath (dir fname : String) : String := dir ++ "/" ++ fname

/-- Model of `recipe_name.ends_with(&format!(".{}", ext))` at the character level. -/
def strEndsWith (s suf : String) : Bool := suf.data.isSuffixOf s.data

/-- The guard of `retrieve_recipe_file`:
`RECIPE_FILE_EXTENSIONS.iter().any(|ext| recipe_name.ends_with(&format!(".{}", ext)))`. -/
def hasRecipeExtension (recipe_name : String) : Bool :=
  RECIPE_FILE_EXTENSIONS.any (fun ext => strEndsWith recipe_name ("." ++ ext))

/-- Embeds `read_recipe_file`: read the content, canonicalize the path, and take the
parent of the canonical path. -/
def read_recipe_file (env : Env) (recipe_path : String) :
    Except String (String × String) :=
  match env.read recipe_path with
  | .error e => .error ("Failed to read recipe file " ++ recipe_path ++ ": " ++ e)
  | .ok content =>
    match env.canonicalize recipe_path with
    | .error e =>
      .error ("Failed to resolve absolute path for " ++ recipe_path ++ ": " ++ e)
    | .ok canonical =>
      match env.parent canonical with
      | none => .error ("Resolved path has no parent: " ++ canonical)
      | some parent_dir => .ok (content, parent_dir)

/-- The `for ext in RECIPE_FILE_EXTENSIONS` loop of `read_recipe_in_dir`. -/
def read_recipe_in_dir_go (env : Env) (dir recipe_name : String) :
    List String → Except String (String × String)
  | [] =>
    .error ("No " ++ recipe_name ++ ".yaml or " ++ recipe_name ++
      ".json recipe file found in directory: " ++ dir)
  | ext :: rest =>
    match read_recipe_file env (joinPath dir (recipe_name ++ "." ++ ext)) with
    | .ok result => .ok result
    | .error _ => read_recipe_in_dir_go env dir recipe_name rest

/-- Embeds `read_recipe_in_dir`. -/
def read_recipe_in_dir (env : Env) (dir recipe_name : String) :
    Except String (String × String) :=
  read_recipe_in_dir_go env dir recipe_name RECIPE_FILE_EXTENSIONS

/-- The separator `if cfg!(windows) { ';' } else { ':' }`. -/
def path_separator (env : Env) : Char := if env.windows then ';' else ':'

/-- Model of `str::split(sep)` on characters (Rust semantics: the empty string splits
to one empty segment). -/
def splitOnChar (sep : Char) : List Char → List (List Char)
  | [] => [[]]
  | c :: rest =>
    match splitOnChar sep rest with
    | [] => [[c]]
    | seg :: segs => if c = sep then [] :: seg :: segs else (c :: seg) :: segs

/-- Embeds `recipe_path_env.split(path_separator).map(PathBuf::from).collect()`. -/
def splitEnvVar (v : String) (sep : Char) : List String :=
  (splitOnChar sep v.data).map (fun l => String.mk l)

/-- The Search Directory List, built identically (inline) at the head of both
`retrieve_recipe_from_local_path` and `discover_local_recipes`:
`vec![PathBuf::from(".")]` extended with the `GOOSE_RECIPE_PATH` segments. -/
def search_dirs (env : Env) : List String :=
  "." :: (match env.recipePathEnv with
    | some recipe_path_env => splitEnvVar recipe_path_env (path_separator env)
    | none => [])

/-- The `for dir in &search_dirs` loop of `retrieve_recipe_from_local_path`:
the first directory whose `read_recipe_in_dir` succeeds wins. -/
def firstDirHit (env : Env) (recipe_name : String) :
    List String → Option (String × String)
  | [] => none
  | dir :: rest =>
    match read_recipe_in_dir env dir recipe_name with
    | .ok result => some result
    | .error _ => firstDirHit env recipe_name rest

/-- Embeds `retrieve_recipe_from_local_path`. -/
def retrieve_recipe_from_local_path (env : Env) (recipe_name : String) :
    Except String (String × String) :=
  match firstDirHit env recipe_name (search_dirs env) with
  | some result => .ok result
  | none =>
    .error ("ℹ️  Failed to retrieve " ++ recipe_name ++ ".yaml or " ++
      recipe_name ++ ".json in " ++ String.intercalate ":" (search_dirs env))

/-- Embeds `retrieve_recipe_file`; `fetch` is `retrieve_recipe_from_github`, passed
explicitly since the GitHub client is an external collaborator. -/
def retrieve_recipe_file (env : Env)
    (fetch : String → String → Except String (String × String))
    (recipe_name : String) : Except String (String × String) :=
  if hasRecipeExtension recipe_name then
    read_recipe_file env recipe_name
  else
    match retrieve_recipe_from_local_path env recipe_name with
    | .ok result => .ok result
    | .error e =>
      match env.githubRepo with
      | some repo => fetch recipe_name repo
      | none => .error e

/-- The `RecipeSource` enum of github_recipe.rs, as consumed here. -/
inductive RecipeSource where
  | Local
  | GitHub

/-- The `RecipeInfo` struct of github_recipe.rs, as constructed here. -/
structure RecipeInfo where
  name : String
  source : RecipeSource
  path : String
  title : Option String
  description : Option String

/-- The output of the external template parsing engine
(`parse_recipe_content`) that `create_local_recipe_info` consumes: the parsed
recipe's title and description. -/
structure ParsedRecipe where
  title : String
  description : String

/-- Embeds `create_local_recipe_info`; `parse` is
`template_recipe::parse_recipe_content(content, recipe_dir)`, an external
collaborator, so it is passed explicitly. -/
def create_local_recipe_info (env : Env)
    (parse : String → String → Except String ParsedRecipe)
    (path : String) : Except String RecipeInfo :=
  match env.read path with
  | .error e => .error e
  | .ok content =>
    let recipe_dir := (env.parent path).getD "."
    match parse content recipe_dir with
    | .error e => .error e
    | .ok recipe =>
      .ok { name := (env.fileStem path).getD "unknown"
            source := .Local
            path := path
            title := some recipe.title
            description := some recipe.description }

/-- The `for entry in fs::read_dir(dir)?` loop of
`scan_directory_for_recipes`: a failing entry aborts (`let entry = entry?;`),
a qualifying file whose `create_local_recipe_info` fails is skipped. -/
def scan_entries (env : Env)
    (parse : String → String → Except String ParsedRecipe) :
    List (Except String DirEntry) → Except String (List RecipeInfo)
  | [] => .ok []
  | .error e :: _ => .error e
  | .ok entry :: rest =>
    if entry.isFile &&
        (match entry.extension with
          | some ext => RECIPE_FILE_EXTENSIONS.contains ext
          | none => false) then
      match create_local_recipe_info env parse entry.path with
      | .ok recipe_info =>
        match scan_entries env parse rest with
        | .ok recipes => .ok (recipe_info :: recipes)
        | .error e => .error e
      | .error _ => scan_entries env parse rest
    else scan_entries env parse rest

/-- Embeds `scan_directory_for_recipes`. -/
def scan_directory_for_recipes (env : Env)
    (parse : String → String → Except String ParsedRecipe)
    (dir : String) : Except String (List RecipeInfo) :=
  if !env.pathExists dir || !env.isDir dir then .ok []
  else
    match env.readDir dir with
    | .error e => .error e
    | .ok entries => scan_entries env parse entries

/-- The `for dir in search_dirs` loop of `discover_local_recipes`: a failing
directory scan is skipped (`if let Ok(dir_recipes)`). -/
def discover_go (env : Env)
    (parse : String → String → Except String ParsedRecipe) :
    List String → List RecipeInfo
  | [] => []
  | dir :: rest =>
    (match scan_directory_for_recipes env parse dir with
      | .ok dir_recipes => dir_recipes
      | .error _ => []) ++ discover_go env parse rest

/-- Embeds `discover_local_recipes`: always `Ok`. -/
def discover_local_recipes (env : Env)
    (parse : String → String → Except String ParsedRecipe) :
    Except String (List RecipeInfo) :=
  .ok (discover_go env parse (search_dirs env))

/-- Embeds `list_available_recipes`; `listGithub` is `list_github_recipes(repo)`, an
external collaborator, passed explicitly. -/
def list_available_recipes (env : Env)
    (parse : String → String → Except String ParsedRecipe)
    (listGithub : String → Except String (List RecipeInfo)) :
    Except String (List RecipeInfo) :=
  let recipes :=
    match discover_local_recipes env parse with
    | .ok local_recipes => local_recipes
    | .error _ => []
  let recipes :=
    match env.githubRepo with
    | some repo =>
      match listGithub repo with
      | .ok github_recipes => recipes ++ github_recipes
      | .error _ => recipes
    | none => recipes
  .ok recipes

/-! ### Deeplink encoder (commands/recipe.rs)

`handle_deeplink` serializes the loaded recipe with `serde_json::to_string`,
encodes the resulting bytes with `base64::engine::general_purpose::STANDARD`
(the standard alphabet, padded) and percent-encodes that with
`urlencoding::encode`.  The two encoders are embedded below at the byte/char
level; the recipe type, loader and JSON serializer are abstract parameters
(they live in external crates), with the serializer producing the UTF-8 bytes
of the JSON text. -/

/-- The standard base64 alphabet. -/
def b64Table : List Char :=
  "ABCDEFGHIJKLMNOPQRSTUVWXYZabcdefghijklmnopqrstuvwxyz0123456789+/".data

/-- The character standing for a sextet. -/
def b64Char (n : Nat) : Char := b64Table.getD n 'A'

/-- The sextet a character stands for, if any. -/
def b64Val (c : Char) : Option Nat := b64Table.findIdx? (fun x => x = c)

/-- Standard padded base64 of a byte sequence
(`base64::engine::general_purpose::STANDARD.encode`). -/
def b64EncodeChars : List Nat → List Char
  | [] => []
  | [a] => [b64Char (a / 4), b64Char (a % 4 * 16), '=', '=']
  | [a, b] =>
    [b64Char (a / 4), b64Char (a % 4 * 16 + b / 16), b64Char (b % 16 * 4), '=']
  | a :: b :: c :: rest =>
    b64Char (a / 4) :: b64Char (a % 4 * 16 + b / 16) ::
      b64Char (b % 16 * 4 + c / 64) :: b64Char (c % 64) :: b64EncodeChars rest

/-- Base64 decoding of a padded quartet stream, inverse of `b64EncodeChars`. -/
def b64DecodeChars : List Char → Option (List Nat)
  | [] => some []
  | c0 :: c1 :: c2 :: c3 :: rest =>
    match b64Val c0, b64Val c1 with
    | some v0, some v1 =>
      if c2 = '=' then
        if c3 = '=' ∧ rest = [] then some [v0 * 4 + v1 / 16] else none
      else
        match b64Val c2 with
        | some v2 =>
          if c3 = '=' then
            if rest = [] then some [v0 * 4 + v1 / 16, v1 % 16 * 16 + v2 / 4]
            else none
          else
            match b64Val c3 with
            | some v3 =>
              (b64DecodeChars rest).map
                (fun bs => (v0 * 4 + v1 / 16) :: (v1 % 16 * 16 + v2 / 4) ::
                  (v2 % 4 * 64 + v3) :: bs)
            | none => none
        | none => none
    | _, _ => none
  | _ => none

/-- The characters `urlencoding::encode` leaves as they are: ASCII
alphanumerics and `-`, `.`, `_`, `~`. -/
def isUrlSafe (c : Char) : Bool :=
  c.isAlphanum || c = '-' || c = '.' || c = '_' || c = '~'

/-- Uppercase hexadecimal digit. -/
def hexDigitChar (n : Nat) : Char :=
  if n < 10 then Char.ofNat (48 + n) else Char.ofNat (55 + n)

/-- Value of a hexadecimal digit. -/
def hexVal (c : Char) : Option Nat :=
  if '0' ≤ c ∧ c ≤ '9' then some (c.toNat - 48)
  else if 'A' ≤ c ∧ c ≤ 'F' then some (c.toNat - 55)
  else if 'a' ≤ c ∧ c ≤ 'f' then some (c.toNat - 87)
  else none

/-- Model of `urlencoding::encode` at the byte level (faithful for ASCII input, which
is all `handle_deeplink` feeds it: base64 output): a safe character is kept,
any other byte becomes `%` followed by two uppercase hex digits. -/
def percentEncodeChars : List Char → List Char
  | [] => []
  | c :: rest =>
    if isUrlSafe c then c :: percentEncodeChars rest
    else '%' :: hexDigitChar (c.toNat / 16) :: hexDigitChar (c.toNat % 16) ::
      percentEncodeChars rest

/-- Percent-decoding, inverse of `percentEncodeChars`. -/
def percentDecodeChars : List Char → Option (List Char)
  | [] => some []
  | c :: rest =>
    if c = '%' then
      match rest with
      | hi :: lo :: rest2 =>
        match hexVal hi, hexVal lo with
        | some vhi, some vlo =>
          (percentDecodeChars rest2).map
            (fun cs => Char.ofNat (16 * vhi + vlo) :: cs)
        | _, _ => none
      | _ => none
    else (percentDecodeChars rest).map (fun cs => c :: cs)

/-- Embeds `handle_deeplink` of commands/recipe.rs, generic in the recipe type `R`
(`goose::recipe::Recipe` lives in an external crate): `load` is
`load_recipe`, `toJsonBytes` is `serde_json::to_string` seen as producing the
UTF-8 bytes of the JSON text.  On a load error the error is returned as is;
on a serialization error the initial empty `full_url` is returned in `Ok`. -/
def handle_deeplink {R : Type} (load : String → Except String R)
    (toJsonBytes : R → Except String (List Nat)) (recipe_name : String) :
    Except String String :=
  match load recipe_name with
  | .ok recipe =>
    let full_url :=
      match toJsonBytes recipe with
      | .ok recipe_json =>
        "goose://recipe?config=" ++
          String.mk (percentEncodeChars (b64EncodeChars recipe_json))
      | .error _ => ""
    .ok full_url
  | .error e => .error e

/-- Joining segments back with the separator: the left inverse of
`splitOnChar`, used to state that splitting keeps every segment in order. -/
def joinWithSep (sep : Char) : List (List Char) → List Char
  | [] => []
  | [l] => l
  | l :: ls => l ++ sep :: joinWithSep sep ls

/-! ### Concrete models, for evaluating the theorems at explicit inputs -/

/-- A filesystem with exactly one readable recipe file, `./foo.yaml`; no
`GOOSE_RECIPE_PATH`, no configured remote repository, not Windows. -/
def envOne : Env where
  read := fun p => if p = "./foo.yaml" then .ok "A" else .error "nf"
  canonicalize := fun _ => .ok "/abs/foo.yaml"
  parent := fun _ => some "/abs"
  fileStem := fun _ => none
  pathExists := fun _ => false
  isDir := fun _ => false
  readDir := fun _ => .ok []
  recipePathEnv := none
  windows := false
  githubRepo := none

/-- A filesystem where directory `d` holds both `foo.yaml` and `foo.json`,
both readable. -/
def envBoth : Env where
  read := fun p =>
    if p = "d/foo.yaml" then .ok "Y"
    else if p = "d/foo.json" then .ok "J"
    else .error "nf"
  canonicalize := fun p => .ok p
  parent := fun _ => some "d"
  fileStem := fun _ => none
  pathExists := fun _ => false
  isDir := fun _ => false
  readDir := fun _ => .ok []
  recipePathEnv := none
  windows := false
  githubRepo := none

/-- A filesystem where no file is readable, with `GOOSE_RECIPE_PATH=p1:p2`
and no configured remote repository. -/
def envMiss : Env where
  read := fun _ => .error "nf"
  canonicalize := fun _ => .error "nf"
  parent := fun _ => none
  fileStem := fun _ => none
  pathExists := fun _ => false
  isDir := fun _ => false
  readDir := fun _ => .ok []
  recipePathEnv := some "p1:p2"
  windows := false
  githubRepo := none

/-- A remote fetch that always fails. -/
def fetchNone : String → String → Except String (String × String) :=
  fun _ _ => .error "no remote"

/-- A remote fetch that always succeeds, to witness that a local match is
preferred even over an available remote one. -/
def fetchSome : String → String → Except String (String × String) :=
  fun _ _ => .ok ("REMOTE", "remote")

/-- A recipe loader (over `R := Nat`) that always succeeds. -/
def loadOk : String → Except String Nat := fun _ => .ok 7

/-- A recipe loader that always fails validation. -/
def loadErr : String → Except String Nat := fun _ => .error "bad recipe"

/-- A serializer producing the two bytes of `"Hi"`. -/
def toJsonHi : Nat → Except String (List Nat) := fun _ => .ok [72, 105]

/-- A serializer that always fails. -/
def toJsonErr : Nat → Except String (List Nat) := fun _ => .error "serialize failed"

/-- The deserializer inverting `toJsonHi`. -/
def fromJsonHi : List Nat → Except String Nat :=
  fun bs => if bs = [72, 105] then .ok 7 else .error "bad json"

/-! ### Helper lemmas -/

theorem b64Val_b64Char : ∀ n < 64, b64Val (b64Char n) = some n := by decide

theorem b64Char_ne_pad : ∀ n < 64, b64Char n ≠ '=' := by decide

theorem b64Char_toNat_lt (n : Nat) : (b64Char n).toNat < 256 := by
  by_cases h : n < 64
  · exact (by decide : ∀ m < 64, (b64Char m).toNat < 256) n h
  · have hlen : b64Table.length = 64 := rfl
    have hle : b64Table.length ≤ n := by omega
    simp [b64Char, List.getD_eq_getElem?_getD, List.getElem?_eq_none hle]

theorem b64_decode_encode : ∀ (bs : List Nat), (∀ b ∈ bs, b < 256) →
    b64DecodeChars (b64EncodeChars bs) = some bs
  | [], _ => rfl
  | [a], h => by
    have ha : a < 256 := h a (by simp)
    have h0 := b64Val_b64Char (a / 4) (by omega)
    have h1 := b64Val_b64Char (a % 4 * 16) (by omega)
    simp only [b64EncodeChars, b64DecodeChars, h0, h1]
    simp only [if_pos rfl, and_self, if_true]
    simp only [Option.some.injEq, List.cons.injEq, and_true]
    omega
  | [a, b], h => by
    have ha : a < 256 := h a (by simp)
    have hb : b < 256 := h b (by simp)
    have h0 := b64Val_b64Char (a / 4) (by omega)
    have h1 := b64Val_b64Char (a % 4 * 16 + b / 16) (by omega)
    have h2 := b64Val_b64Char (b % 16 * 4) (by omega)
    have hne := b64Char_ne_pad (b % 16 * 4) (by omega)
    simp only [b64EncodeChars, b64DecodeChars, h0, h1, if_neg hne, h2,
      if_pos rfl, if_true]
    simp only [Option.some.injEq, List.cons.injEq, and_true]
    constructor
    · omega
    · omega
  | a :: b :: c :: rest, h => by
    have ha : a < 256 := h a (by simp)
    have hb : b < 256 := h b (by simp)
    have hc : c < 256 := h c (by simp)
    have h0 := b64Val_b64Char (a / 4) (by omega)
    have h1 := b64Val_b64Char (a % 4 * 16 + b / 16) (by omega)
    have h2 := b64Val_b64Char (b % 16 * 4 + c / 64) (by omega)
    have h3 := b64Val_b64Char (c % 64) (by omega)
    have hne2 := b64Char_ne_pad (b % 16 * 4 + c / 64) (by omega)
    have hne3 := b64Char_ne_pad (c % 64) (by omega)
    have ih := b64_decode_encode rest (fun x hx => h x (by simp [hx]))
    simp only [b64EncodeChars, b64DecodeChars, h0, h1, if_neg hne2, h2,
      if_neg hne3, h3, ih, Option.map_some']
    simp only [Option.some.injEq, List.cons.injEq, and_true]
    refine ⟨by omega, by omega, by omega⟩

theorem mem_b64Encode_toNat_lt :
    ∀ (bs : List Nat), ∀ c ∈ b64EncodeChars bs, c.toNat < 256
  | [], c, hc => by simp [b64EncodeChars] at hc
  | [a], c, hc => by
    simp only [b64EncodeChars, List.mem_cons, List.mem_singleton,
      List.not_mem_nil, or_false] at hc
    rcases hc with h | h | h | h <;> subst h
    · exact b64Char_toNat_lt _
    · exact b64Char_toNat_lt _
    · decide
    · decide
  | [a, b], c, hc => by
    simp only [b64EncodeChars, List.mem_cons, List.mem_singleton,
      List.not_mem_nil, or_false] at hc
    rcases hc with h | h | h | h <;> subst h
    · exact b64Char_toNat_lt _
    · exact b64Char_toNat_lt _
    · exact b64Char_toNat_lt _
    · decide
  | a :: b :: c :: rest, x, hx => by
    simp only [b64EncodeChars, List.mem_cons] at hx
    rcases hx with h | h | h | h | h
    · subst h; exact b64Char_toNat_lt _
    · subst h; exact b64Char_toNat_lt _
    · subst h; exact b64Char_toNat_lt _
    · subst h; exact b64Char_toNat_lt _
    · exact mem_b64Encode_toNat_lt rest x h

theorem hexVal_hexDigitChar : ∀ n < 16, hexVal (hexDigitChar n) = some n := by
  decide

theorem isUrlSafe_ne_percent (c : Char) (h : isUrlSafe c = true) : c ≠ '%' := by
  intro hc
  subst hc
  exact absurd h (by decide)

theorem percent_decode_encode : ∀ (cs : List Char), (∀ c ∈ cs, c.toNat < 256) →
    percentDecodeChars (percentEncodeChars cs) = some cs
  | [], _ => rfl
  | c :: rest, h => by
    have hc : c.toNat < 256 := h c (by simp)
    have ih := percent_decode_encode rest (fun x hx => h x (by simp [hx]))
    by_cases hs : isUrlSafe c = true
    · have hne : c ≠ '%' := isUrlSafe_ne_percent c hs
      simp only [percentEncodeChars, if_pos hs]
      rw [percentDecodeChars.eq_def]
      simp [if_neg hne, ih]
    · have h1 := hexVal_hexDigitChar (c.toNat / 16) (by omega)
      have h2 := hexVal_hexDigitChar (c.toNat % 16) (by omega)
      simp only [percentEncodeChars, if_neg hs]
      simp [percentDecodeChars, h1, h2, ih]
      rw [Nat.div_add_mod, Char.ofNat_toNat]

theorem firstDirHit_at (env : Env) (recipe_name : String) :
    ∀ (dirs : List String) (i : Nat) (hi : i < dirs.length) (r : String × String),
      read_recipe_in_dir env (dirs.get ⟨i, hi⟩) recipe_name = .ok r →
      (∀ j (hj : j < i),
        (read_recipe_in_dir env (dirs.get ⟨j, Nat.lt_trans hj hi⟩)
          recipe_name).isOk = false) →
      firstDirHit env recipe_name dirs = some r
  | [], i, hi, _, _, _ => absurd hi (Nat.not_lt_zero i)
  | d :: rest, 0, _, r, hok, _ => by
    have hok' : read_recipe_in_dir env d recipe_name = .ok r := hok
    simp [firstDirHit, hok']
  | d :: rest, i + 1, hi, r, hok, hmiss => by
    have hd : (read_recipe_in_dir env d recipe_name).isOk = false :=
      hmiss 0 (Nat.succ_pos i)
    have hok' : read_recipe_in_dir env
        (rest.get ⟨i, Nat.lt_of_succ_lt_succ hi⟩) recipe_name = .ok r := hok
    cases hread : read_recipe_in_dir env d recipe_name with
    | ok v =>
      rw [hread] at hd
      simp [Except.isOk, Except.toBool] at hd
    | error e =>
      have ih := firstDirHit_at env recipe_name rest i
        (Nat.lt_of_succ_lt_succ hi) r hok'
        (fun j hj => hmiss (j + 1) (Nat.succ_lt_succ hj))
      simp [firstDirHit, hread, ih]

theorem firstDirHit_none (env : Env) (recipe_name : String) :
    ∀ (dirs : List String),
      (∀ d ∈ dirs, (read_recipe_in_dir env d recipe_name).isOk = false) →
      firstDirHit env recipe_name dirs = none
  | [], _ => rfl
  | d :: rest, h => by
    have hd := h d (by simp)
    cases hread : read_recipe_in_dir env d recipe_name with
    | ok v =>
      rw [hread] at hd
      simp [Except.isOk, Except.toBool] at hd
    | error e =>
      have ih := firstDirHit_none env recipe_name rest
        (fun x hx => h x (by simp [hx]))
      simp [firstDirHit, hread, ih]

theorem splitOnChar_ne_nil (sep : Char) : ∀ l, splitOnChar sep l ≠ []
  | [] => by simp [splitOnChar]
  | c :: rest => by
    cases h : splitOnChar sep rest with
    | nil => simp [splitOnChar, h]
    | cons seg segs =>
      simp only [splitOnChar, h]
      split <;> simp

theorem joinWithSep_cons_cons (sep c : Char) (seg : List Char)
    (segs : List (List Char)) :
    joinWithSep sep ((c :: seg) :: segs) = c :: joinWithSep sep (seg :: segs) := by
  cases segs <;> simp [joinWithSep]

theorem joinWithSep_splitOnChar (sep : Char) (l : List Char) :
    joinWithSep sep (splitOnChar sep l) = l := by
  induction l with
  | nil => rfl
  | cons c rest ih =>
    rcases h : splitOnChar sep rest with _ | ⟨seg, segs⟩
    · exact absurd h (splitOnChar_ne_nil sep rest)
    · rw [h] at ih
      by_cases hc : c = sep
      · have hsplit : splitOnChar sep (c :: rest) = [] :: seg :: segs := by
          simp [splitOnChar, h, hc]
        have hjoin : joinWithSep sep ([] :: seg :: segs) =
            sep :: joinWithSep sep (seg :: segs) := by
          simp [joinWithSep]
        rw [hsplit, hjoin, ih, hc]
      · have hsplit : splitOnChar sep (c :: rest) = (c :: seg) :: segs := by
          simp [splitOnChar, h, hc]
        rw [hsplit, joinWithSep_cons_cons, ih]

/-! ### The claims -/

/-- C1: for a bare-name identifier (one not ending in a recognized
extension), `retrieve_recipe_file` returns the match of the earliest
directory of the Search Directory List that yields one, and its result does
not depend on the remote fetch at all: a local match in any directory is
preferred over any remote result, the remote fetch being consulted only
after every local directory has failed. -/
theorem C1_local_first_match_wins (env : Env) (recipe_name : String) (i : Nat)
    (r : String × String)
    (hbare : hasRecipeExtension recipe_name = false)
    (hi : i < (search_dirs env).length)
    (hhit : read_recipe_in_dir env ((search_dirs env).get ⟨i, hi⟩)
      recipe_name = .ok r)
    (hmiss : ∀ j (hj : j < i),
      (read_recipe_in_dir env ((search_dirs env).get ⟨j, Nat.lt_trans hj hi⟩)
        recipe_name).isOk = false) :
    ∀ fetch, retrieve_recipe_file env fetch recipe_name = .ok r := by
  intro fetch
  have hfirst := firstDirHit_at env recipe_name (search_dirs env) i hi r hhit hmiss
  simp [retrieve_recipe_file, hbare, retrieve_recipe_from_local_path, hfirst]

/-- C1, evaluated: with only `./foo.yaml` readable and a remote fetch that
would succeed, resolution of the bare name `foo` returns the local match. -/
theorem C1_local_first_match_wins_witness :
    retrieve_recipe_file envOne fetchSome "foo" = .ok ("A", "/abs") :=
  C1_local_first_match_wins envOne "foo" 0 ("A", "/abs") rfl (by decide) rfl
    (fun j hj => absurd hj (Nat.not_lt_zero j)) fetchSome

/-- C2: an identifier ending in a recognized extension is read as a literal
path — the result is exactly `read_recipe_file` on that path, whatever the
search directories or the remote fetch would say — and when the read fails
the error is the read error for that single path. -/
theorem C2_direct_path_bypass (env : Env)
    (fetch : String → String → Except String (String × String))
    (recipe_name : String)
    (hdirect : hasRecipeExtension recipe_name = true) :
    retrieve_recipe_file env fetch recipe_name =
      read_recipe_file env recipe_name ∧
    ∀ e, env.read recipe_name = .error e →
      retrieve_recipe_file env fetch recipe_name =
        .error ("Failed to read recipe file " ++ recipe_name ++ ": " ++ e) := by
  have h1 : retrieve_recipe_file env fetch recipe_name =
      read_recipe_file env recipe_name := by
    simp [retrieve_recipe_file, hdirect]
  refine ⟨h1, fun e he => ?_⟩
  rw [h1]
  simp [read_recipe_file, he]

/-- C2, evaluated: `a.yaml` is unreadable, yet the remote fetch (which would
succeed) is not consulted; the result is the read error for `a.yaml`. -/
theorem C2_direct_path_bypass_witness :
    retrieve_recipe_file envOne fetchSome "a.yaml" =
      .error "Failed to read recipe file a.yaml: nf" :=
  (C2_direct_path_bypass envOne fetchSome "a.yaml" rfl).2 "nf" rfl

/-- C3 (amended): when a bare name fails in every search directory and no
remote repository is configured, the error enumerates every searched
directory, joined with ":" — but it carries no note about whether a remote
fallback was attempted. -/
theorem C3_notfound_enumerates_dirs (env : Env) (recipe_name : String)
    (hbare : hasRecipeExtension recipe_name = false)
    (hmiss : ∀ d ∈ search_dirs env,
      (read_recipe_in_dir env d recipe_name).isOk = false)
    (hnorepo : env.githubRepo = none) :
    ∀ fetch, retrieve_recipe_file env fetch recipe_name =
      .error ("ℹ️  Failed to retrieve " ++ recipe_name ++ ".yaml or " ++
        recipe_name ++ ".json in " ++ String.intercalate ":" (search_dirs env)) := by
  intro fetch
  have hnone := firstDirHit_none env recipe_name (search_dirs env) hmiss
  simp [retrieve_recipe_file, hbare, retrieve_recipe_from_local_path, hnone,
    hnorepo]

/-- C3, counterexample to the claim as stated: with search directories
`.`, `p1`, `p2` all failing and no remote repository configured, the
NotFound message is exactly this string — it enumerates the searched
directories but says nothing about whether a remote fallback was
attempted. -/
theorem C3_message_has_no_remote_note :
    retrieve_recipe_file envMiss fetchNone "foo" =
      .error "ℹ️  Failed to retrieve foo.yaml or foo.json in .:p1:p2" := rfl

/-- C3 (amended), evaluated: with no `GOOSE_RECIPE_PATH` the single searched
directory `.` is listed. -/
theorem C3_notfound_enumerates_dirs_witness :
    retrieve_recipe_file envOne fetchNone "bar" =
      .error "ℹ️  Failed to retrieve bar.yaml or bar.json in ." :=
  C3_notfound_enumerates_dirs envOne "bar" rfl (by decide) rfl fetchNone

/-- C4: when `dir/name.yaml` and `dir/name.json` are both readable,
`read_recipe_in_dir` returns the `.yaml` one — the first extension of
`RECIPE_FILE_EXTENSIONS` — and, the embedding being a pure function of the
filesystem state, repeated calls agree. -/
theorem C4_extension_priority (env : Env) (dir recipe_name : String)
    (ryaml rjson : String × String)
    (hyaml : read_recipe_file env
      (joinPath dir (recipe_name ++ "." ++ "yaml")) = .ok ryaml)
    (_hjson : read_recipe_file env
      (joinPath dir (recipe_name ++ "." ++ "json")) = .ok rjson) :
    read_recipe_in_dir env dir recipe_name = .ok ryaml ∧
    read_recipe_in_dir env dir recipe_name =
      read_recipe_in_dir env dir recipe_name := by
  refine ⟨?_, rfl⟩
  simp [read_recipe_in_dir, RECIPE_FILE_EXTENSIONS, read_recipe_in_dir_go, hyaml]

/-- C4, evaluated: `d/foo.yaml` holds `Y` and `d/foo.json` holds `J`; the
resolution returns the yaml content. -/
theorem C4_extension_priority_witness :
    read_recipe_in_dir envBoth "d" "foo" = .ok ("Y", "d") :=
  (C4_extension_priority envBoth "d" "foo" ("Y", "d") ("J", "d") rfl rfl).1

/-- C5: when the recipe loads and serializes, `handle_deeplink` produces
`goose://recipe?config=<v>` with `<v>` the percent-encoding of the standard
padded base64 encoding of the recipe's JSON bytes, and un-percent-encoding,
base64-decoding and deserializing `<v>` reproduces the loaded recipe. -/
theorem C5_deeplink_roundtrip {R : Type} (load : String → Except String R)
    (toJsonBytes : R → Except String (List Nat))
    (fromJsonBytes : List Nat → Except String R)
    (recipe_name : String) (recipe : R) (recipe_json : List Nat)
    (hload : load recipe_name = .ok recipe)
    (hser : toJsonBytes recipe = .ok recipe_json)
    (hbytes : ∀ b ∈ recipe_json, b < 256)
    (hinv : fromJsonBytes recipe_json = .ok recipe) :
    handle_deeplink load toJsonBytes recipe_name =
      .ok ("goose://recipe?config=" ++
        String.mk (percentEncodeChars (b64EncodeChars recipe_json))) ∧
    percentDecodeChars (percentEncodeChars (b64EncodeChars recipe_json)) =
      some (b64EncodeChars recipe_json) ∧
    b64DecodeChars (b64EncodeChars recipe_json) = some recipe_json ∧
    fromJsonBytes recipe_json = .ok recipe := by
  refine ⟨?_, ?_, ?_, hinv⟩
  · simp [handle_deeplink, hload, hser]
  · exact percent_decode_encode _ (mem_b64Encode_toNat_lt recipe_json)
  · exact b64_decode_encode recipe_json hbytes

/-- C5, evaluated on the serialized bytes of `"Hi"`: the URL is
`goose://recipe?config=SGk%3D` and the decode chain recovers the recipe. -/
theorem C5_deeplink_roundtrip_witness :
    handle_deeplink loadOk toJsonHi "x" = .ok "goose://recipe?config=SGk%3D" ∧
    percentDecodeChars (percentEncodeChars (b64EncodeChars [72, 105])) =
      some (b64EncodeChars [72, 105]) ∧
    b64DecodeChars (b64EncodeChars [72, 105]) = some [72, 105] ∧
    fromJsonHi [72, 105] = .ok 7 :=
  C5_deeplink_roundtrip loadOk toJsonHi fromJsonHi "x" 7 [72, 105] rfl rfl
    (by decide) rfl

/-- C6: when loading/validation fails, `handle_deeplink` returns exactly the
loader's error and produces no URL. -/
theorem C6_deeplink_load_error {R : Type} (load : String → Except String R)
    (toJsonBytes : R → Except String (List Nat)) (recipe_name e : String)
    (h : load recipe_name = .error e) :
    handle_deeplink load toJsonBytes recipe_name = .error e := by
  simp [handle_deeplink, h]

/-- C6, evaluated: a loader failing with `bad recipe` makes
`handle_deeplink` fail with that very error. -/
theorem C6_deeplink_load_error_witness :
    handle_deeplink loadErr toJsonHi "x" = .error "bad recipe" :=
  C6_deeplink_load_error loadErr toJsonHi "x" "bad recipe" rfl

/-- C7: `list_available_recipes` never returns an error — every environment
yields an `Ok` — and each recoverable sub-failure is swallowed at its own
scope: a failing remote list leaves exactly the local results, a failing
per-file construction skips only that entry, a failing directory scan skips
only that directory. -/
theorem C7_listing_never_fails (env : Env)
    (parse : String → String → Except String ParsedRecipe)
    (listGithub : String → Except String (List RecipeInfo)) :
    (∃ recipes, list_available_recipes env parse listGithub = .ok recipes) ∧
    (∀ repo e, env.githubRepo = some repo → listGithub repo = .error e →
      list_available_recipes env parse listGithub =
        .ok (discover_go env parse (search_dirs env))) ∧
    (∀ (entry : DirEntry) rest e,
      create_local_recipe_info env parse entry.path = .error e →
      scan_entries env parse (.ok entry :: rest) = scan_entries env parse rest) ∧
    (∀ dir rest e, scan_directory_for_recipes env parse dir = .error e →
      discover_go env parse (dir :: rest) = discover_go env parse rest) := by
  refine ⟨⟨_, rfl⟩, ?_, ?_, ?_⟩
  · intro repo e hrepo herr
    simp [list_available_recipes, discover_local_recipes, hrepo, herr]
  · intro entry rest e herr
    simp [scan_entries, herr]
  · intro dir rest e herr
    simp [discover_go, herr]

/-- C8: the Search Directory List always starts with the current directory;
with no `GOOSE_RECIPE_PATH` it is exactly `["."]`; with it set, it is `"."`
followed by the variable's segments split on the platform delimiter, in an
order that reassembles the variable verbatim (so no deduplication, no
reordering, no existence filtering). -/
theorem C8_search_dirs_shape (env : Env) :
    (search_dirs env).head? = some "." ∧
    (env.recipePathEnv = none → search_dirs env = ["."]) ∧
    (∀ v, env.recipePathEnv = some v →
      search_dirs env = "." :: splitEnvVar v (path_separator env) ∧
      joinWithSep (path_separator env)
        ((splitEnvVar v (path_separator env)).map String.data) = v.data) := by
  refine ⟨rfl, fun h => by simp [search_dirs, h], fun v h => ⟨by simp [search_dirs, h], ?_⟩⟩
  have hmap : (splitEnvVar v (path_separator env)).map String.data =
      splitOnChar (path_separator env) v.data := by
    simp only [splitEnvVar, List.map_map]
    have hcomp : (String.data ∘ fun l => String.mk l) = id := rfl
    rw [hcomp, List.map_id]
  rw [hmap, joinWithSep_splitOnChar]

/-- C9: a successful local read returns, as base directory, the parent of
the canonicalized path of the file (never of the as-given path); when the
path cannot be canonicalized, or the canonical path has no parent, the
resolution fails with the corresponding path error. -/
theorem C9_canonical_parent (env : Env) (recipe_path content : String)
    (hread : env.read recipe_path = .ok content) :
    (∀ canonical parent_dir, env.canonicalize recipe_path = .ok canonical →
      env.parent canonical = some parent_dir →
      read_recipe_file env recipe_path = .ok (content, parent_dir)) ∧
    (∀ e, env.canonicalize recipe_path = .error e →
      read_recipe_file env recipe_path =
        .error ("Failed to resolve absolute path for " ++ recipe_path ++ ": " ++ e)) ∧
    (∀ canonical, env.canonicalize recipe_path = .ok canonical →
      env.parent canonical = none →
      read_recipe_file env recipe_path =
        .error ("Resolved path has no parent: " ++ canonical)) := by
  refine ⟨fun c d hc hd => ?_, fun e he => ?_, fun c hc hd => ?_⟩ <;>
    simp [read_recipe_file, hread, *]

/-- C9, evaluated: `./foo.yaml` canonicalizes to `/abs/foo.yaml`, whose
parent `/abs` is the returned base directory. -/
theorem C9_canonical_parent_witness :
    read_recipe_file envOne "./foo.yaml" = .ok ("A", "/abs") :=
  (C9_canonical_parent envOne "./foo.yaml" "A" rfl).1 "/abs/foo.yaml" "/abs"
    rfl rfl

/-- C10: a recipe that loads but whose JSON serialization fails makes
`handle_deeplink` return `Ok` with the (still empty) URL string — the
serialization failure is silently swallowed. -/
theorem C10_serialization_failure_swallowed {R : Type}
    (load : String → Except String R)
    (toJsonBytes : R → Except String (List Nat))
    (recipe_name : String) (recipe : R) (e : String)
    (hload : load recipe_name = .ok recipe)
    (hser : toJsonBytes recipe = .error e) :
    handle_deeplink load toJsonBytes recipe_name = .ok "" := by
  simp [handle_deeplink, hload, hser]

/-- C10, evaluated: a always-failing serializer yields `Ok ""`. -/
theorem C10_serialization_failure_swallowed_witness :
    handle_deeplink loadOk toJsonErr "x" = .ok "" :=
  C10_serialization_failure_swallowed loadOk toJsonErr "x" 7 "serialize failed"
    rfl rfl

